import Mathlib

/-!
Verification of the sales-reconciliation and aggregation pipeline of the
`report_system` repository (accounts/views.py, accounts/tasks.py,
accounts/utils/supabase_utils.py), as a shallow embedding in Lean.

Numbers are modelled as rationals (Python floats are used on exact decimal
data here).  String helpers model the ASCII behaviour of the Python string
and `re` operations actually exercised by the code.
-/

/-- ASCII whitespace as recognised by Python `str.strip`, `str.split` and
the regex class `\s` (space, tab, newline, carriage return, vertical tab,
form feed). -/
def pyIsSpace (c : Char) : Bool :=
  c = ' ' || c = '\t' || c = '\n' || c = '\r' || c = Char.ofNat 11 || c = Char.ofNat 12

/-- Trim leading and trailing whitespace from a character list. -/
def pyStripChars (l : List Char) : List Char :=
  ((l.dropWhile pyIsSpace).reverse.dropWhile pyIsSpace).reverse

/-- Model of Python `str.strip()` (ASCII whitespace). -/
def pyStrip (s : String) : String :=
  String.mk (pyStripChars s.data)

/-- Model of Python `str.upper()` restricted to ASCII letters, which is all
the source exercises it on. -/
def pyUpper (s : String) : String :=
  String.mk (s.data.map Char.toUpper)

/-- Model of Python `str.lower()` restricted to ASCII letters. -/
def pyLower (s : String) : String :=
  String.mk (s.data.map Char.toLower)

/-- Substring containment on character lists (Python `needle in hay`). -/
def containsSub (needle : List Char) : List Char → Bool
  | [] => needle.isEmpty
  | c :: cs => needle.isPrefixOf (c :: cs) || containsSub needle cs

/-- Model of the Python containment test `needle in hay` on strings. -/
def pyIn (needle hay : String) : Bool :=
  containsSub needle.data hay.data

/-- Helper for `pySplit`: accumulate the current token while scanning. -/
def pySplitAux : List Char → List Char → List (List Char)
  | [], acc => if acc.isEmpty then [] else [acc.reverse]
  | c :: cs, acc =>
      if pyIsSpace c then
        if acc.isEmpty then pySplitAux cs [] else acc.reverse :: pySplitAux cs []
      else pySplitAux cs (c :: acc)

/-- Model of Python `str.split()` with no argument: split on whitespace
runs, discarding empty tokens. -/
def pySplit (s : String) : List String :=
  (pySplitAux s.data []).map String.mk

/-- Numeric value of a digit list (most significant first). -/
def natValChars (l : List Char) : Nat :=
  l.foldl (fun a c => 10 * a + (c.toNat - 48)) 0

/-- Model of Python `float(str)` on the decimal forms the pipeline feeds it
(`[sign] digits [. digits]` or `[sign] . digits`, surrounded by optional
whitespace).  Exponents, `inf`/`nan` and underscores never occur in this
code's inputs and are not modelled: such strings map to `none`, i.e. a
`ValueError`. -/
def parseFloatChars (l : List Char) : Option ℚ :=
  let l := pyStripChars l
  let core : List Char → Option ℚ := fun m =>
    let ds := m.takeWhile Char.isDigit
    match m.dropWhile Char.isDigit with
    | [] => if ds.isEmpty then none else some (natValChars ds)
    | '.' :: fr =>
        if fr.all Char.isDigit ∧ ¬(ds.isEmpty ∧ fr.isEmpty) then
          some ((natValChars ds : ℚ) + (natValChars fr : ℚ) / 10 ^ fr.length)
        else none
    | _ => none
  match l with
  | '-' :: r => (core r).map (fun q => -q)
  | '+' :: r => core r
  | _ => core l

/-- Model of Python `float(str)` returning `none` on a `ValueError`. -/
def parseFloat (s : String) : Option ℚ :=
  parseFloatChars s.data

/-- A Python value fed to the meter calculator: `None`, a number, or a
string (strings cover the non-numeric / not-float-convertible case). -/
inductive PyVal where
  | none : PyVal
  | num (x : ℚ) : PyVal
  | str (s : String) : PyVal
deriving DecidableEq

/-- Model of Python `float(v)`: `None` raises `TypeError`, numbers convert
exactly, strings go through `float(str)` parsing. -/
def pyFloat : PyVal → Option ℚ
  | PyVal.none => Option.none
  | PyVal.num x => some x
  | PyVal.str s => parseFloat s

/-- Embedding of `calc_dispensed` (accounts/views.py lines 160-183):
missing (`None`) or non-convertible inputs return 0 via the guard and the
`try/except`; otherwise the three-branch meter logic runs. -/
def calc_dispensed (opening closing : PyVal) (max_meter : ℚ := 100000) : ℚ :=
  if opening = PyVal.none ∨ closing = PyVal.none then 0
  else
    match pyFloat opening, pyFloat closing with
    | some o, some c =>
        if c ≥ o then c - o
        else if o - c > (0.5 : ℚ) * max_meter then (max_meter - o) + c
        else 0
    | _, _ => 0

/-- Three-case reference definition, following the spec wording of §4.2
(for comparison with `calc_dispensed`, claim C1). -/
def dispensedSpecRef (opening closing max_meter : ℚ) : ℚ :=
  if closing ≥ opening then closing - opening
  else if opening - closing > (0.5 : ℚ) * max_meter then (max_meter - opening) + closing
  else 0

/-- A row of the `fuel_rates` table as read by `fetch_daily_sales_reports`
(accounts/utils/supabase_utils.py).  ISO date strings compare
lexicographically in chronological order, so start dates are modelled as
naturals. -/
structure FuelRate where
  rate_name : String
  start_date : Nat
  value : ℚ
deriving DecidableEq

/-- Stable descending insertion by start date: an element is placed before
the first entry whose start date is ≤ its own, so equal keys keep their
original relative order, exactly as Python's stable
`sorted(..., reverse=True)`. -/
def insertDesc (x : FuelRate) : List FuelRate → List FuelRate
  | [] => [x]
  | y :: ys => if y.start_date ≤ x.start_date then x :: y :: ys else y :: insertDesc x ys

/-- Stable sort by start date, descending (model of
`sorted(candidates, key=lambda r: r["start_date"], reverse=True)`). -/
def sortByStartDesc : List FuelRate → List FuelRate
  | [] => []
  | x :: xs => insertDesc x (sortByStartDesc xs)

/-- The candidate rates for a name and report date: the entries of
`rate_lookup[rate_name]` whose start date is ≤ the report date. -/
def rateCandidates (rates : List FuelRate) (rate_name : String) (report_date : Nat) :
    List FuelRate :=
  rates.filter (fun r => decide (r.rate_name = rate_name ∧ r.start_date ≤ report_date))

/-- Embedding of `get_rate_for_date` (supabase_utils.py lines 203-210):
filter the rates of the given name to those starting on or before the
report date; return 0 on an empty candidate list, else the value of the
head of the descending sort (`sortByStartDesc` of `[]` is `[]`, matching
the source's emptiness test before sorting). -/
def get_rate_for_date (rates : List FuelRate) (rate_name : String) (report_date : Nat) : ℚ :=
  match sortByStartDesc (rateCandidates rates rate_name report_date) with
  | [] => 0
  | r :: _ => r.value

/-- A `slip_items` row as consumed by `admin_dashboard` (accounts/views.py
lines 986-1025).  `Option.none` in a field models a missing key or Python
`None`/falsy value, which each `or`-default collapses to its default;
numeric fields carry the float-converted value. -/
structure SlipItem where
  total_price : Option ℚ
  vat : Option ℚ
  qty : Option ℚ
  item_name : Option String
  attendant : Option String
  trandate : Option String
  trantime : Option String
  slip_id : Option Nat
  id : Nat
deriving DecidableEq

/-- The transaction key `item.get("slip_id") or item.get("id")`: a missing
or falsy (0) `slip_id` falls back to the row id. -/
def slipKey (item : SlipItem) : Nat :=
  match item.slip_id with
  | Option.none => item.id
  | some n => if n = 0 then item.id else n

/-- The row amount `float(item.get("total_price") or 0)`. -/
def itemAmount (item : SlipItem) : ℚ :=
  item.total_price.getD 0

/-- Fuel classification used by `admin_dashboard`: the uppercased item name
contains "DIESEL" or "UNLEADED". -/
def isFuelItem (item : SlipItem) : Bool :=
  pyIn "DIESEL" (pyUpper (item.item_name.getD "")) ||
    pyIn "UNLEADED" (pyUpper (item.item_name.getD ""))

/-- The local accumulators of the `admin_dashboard` aggregation loop.
Python dicts become total functions, the `seen_slips` set becomes the list
of keys added so far. -/
structure DashState where
  total_revenue : ℚ
  total_vat : ℚ
  total_returns : ℚ
  total_transactions : Nat
  fuel_total : ℚ
  nonfuel_total : ℚ
  diesel_total : ℚ
  unleaded_total : ℚ
  daily_sales : String → ℚ
  hourly_sales : String → ℚ
  staff_sales : String → ℚ × Nat
  seen_slips : List Nat

/-- The zero-initialised accumulators of `admin_dashboard` (views.py lines
970-984); `staff_sales` defaults to `{"sales": 0.0, "transactions": 0}`. -/
def dashInit : DashState :=
  ⟨0, 0, 0, 0, 0, 0, 0, 0, fun _ => 0, fun _ => 0, fun _ => (0, 0), []⟩

/-- `total_revenue += amount; total_vat += vat` (views.py 996-997). -/
def stepRevenueVat (s : DashState) (item : SlipItem) : DashState :=
  { s with total_revenue := s.total_revenue + itemAmount item,
           total_vat := s.total_vat + item.vat.getD 0 }

/-- Slip deduplication (views.py 999-1001): a key not yet seen bumps the
transaction count and joins the seen set. -/
def stepTransactions (s : DashState) (item : SlipItem) : DashState :=
  if slipKey item ∈ s.seen_slips then s
  else { s with total_transactions := s.total_transactions + 1,
                seen_slips := slipKey item :: s.seen_slips }

/-- Fuel versus non-fuel split (views.py 1004-1007). -/
def stepFuelSplit (s : DashState) (item : SlipItem) : DashState :=
  if isFuelItem item then { s with fuel_total := s.fuel_total + itemAmount item }
  else { s with nonfuel_total := s.nonfuel_total + itemAmount item }

/-- Per-grade diesel total (views.py 1009-1010). -/
def stepDiesel (s : DashState) (item : SlipItem) : DashState :=
  if pyIn "DIESEL" (pyUpper (item.item_name.getD "")) then
    { s with diesel_total := s.diesel_total + itemAmount item }
  else s

/-- Per-grade unleaded total (views.py 1011-1012). -/
def stepUnleaded (s : DashState) (item : SlipItem) : DashState :=
  if pyIn "UNLEADED" (pyUpper (item.item_name.getD "")) then
    { s with unleaded_total := s.unleaded_total + itemAmount item }
  else s

/-- Daily trend bucket keyed by the raw transaction date (views.py
1015-1016); a missing or empty date is falsy and skips the update. -/
def stepDaily (s : DashState) (item : SlipItem) : DashState :=
  if item.trandate.getD "" ≠ "" then
    { s with daily_sales := fun d =>
        if d = item.trandate.getD "" then s.daily_sales d + itemAmount item
        else s.daily_sales d }
  else s

/-- Hourly trend bucket keyed by the first two characters of the
transaction time (views.py 1019-1021). -/
def stepHourly (s : DashState) (item : SlipItem) : DashState :=
  if item.trantime.getD "" ≠ "" then
    { s with hourly_sales := fun h =>
        if h = (item.trantime.getD "").take 2 then s.hourly_sales h + itemAmount item
        else s.hourly_sales h }
  else s

/-- The attendant key `item.get("attendant") or "Unknown"`. -/
def attendantKey (item : SlipItem) : String :=
  match item.attendant with
  | Option.none => "Unknown"
  | some a => if a = "" then "Unknown" else a

/-- Staff performance accumulation (views.py 1024-1025). -/
def stepStaff (s : DashState) (item : SlipItem) : DashState :=
  { s with staff_sales := fun a =>
      if a = attendantKey item then
        ((s.staff_sales a).1 + itemAmount item, (s.staff_sales a).2 + 1)
      else s.staff_sales a }

/-- One iteration of the `admin_dashboard` row loop (views.py lines
986-1025): the per-statement updates composed in source order. -/
def dashStep (s : DashState) (item : SlipItem) : DashState :=
  stepStaff
    (stepHourly
      (stepDaily
        (stepUnleaded
          (stepDiesel
            (stepFuelSplit (stepTransactions (stepRevenueVat s item) item) item) item)
          item) item) item) item

/-- The `admin_dashboard` aggregation over a fetched row set: fold the row
loop over the zero state. -/
def admin_dashboard_agg (rows : List SlipItem) : DashState :=
  rows.foldl dashStep dashInit

/-- `nett_revenue = total_revenue - total_returns` (views.py line 1065). -/
def views_nett_revenue (s : DashState) : ℚ :=
  s.total_revenue - s.total_returns

/-- Two example line items sharing slip identifier 5 (claim C3). -/
def slipItemBread : SlipItem :=
  ⟨some 10, Option.none, Option.none, some "BREAD", Option.none, Option.none, Option.none,
    some 5, 1⟩

/-- Second line item of the same slip (claim C3). -/
def slipItemMilk : SlipItem :=
  ⟨some 5, Option.none, Option.none, some "MILK", Option.none, Option.none, Option.none,
    some 5, 2⟩

/-- Tokens of the regex `\d+\.?\d*` found left to right (model of
`re.findall`), with a fuel argument for structural recursion; each
recursive call strictly shrinks the scanned list, so a fuel of
`length + 1` never runs out. -/
def findNumsF : Nat → List Char → List (List Char)
  | 0, _ => []
  | _ + 1, [] => []
  | fuel + 1, c :: cs =>
      if c.isDigit then
        let ds := (c :: cs).takeWhile Char.isDigit
        match (c :: cs).dropWhile Char.isDigit with
        | '.' :: r2 =>
            (ds ++ '.' :: r2.takeWhile Char.isDigit) ::
              findNumsF fuel (r2.dropWhile Char.isDigit)
        | r => ds :: findNumsF fuel r
      else findNumsF fuel cs

/-- All matches of `\d+\.?\d*` in a character list. -/
def findNums (l : List Char) : List (List Char) :=
  findNumsF (l.length + 1) l

/-- Decimal value of one `\d+\.?\d*` token, i.e. `float(token)` on the
shapes that regex can produce (digits, optionally a dot and more digits;
`float("12.")` is 12.0). -/
def numVal (l : List Char) : ℚ :=
  let ds := l.takeWhile Char.isDigit
  match l.dropWhile Char.isDigit with
  | '.' :: fr =>
      (natValChars ds : ℚ) +
        (natValChars (fr.takeWhile Char.isDigit) : ℚ) / 10 ^ (fr.takeWhile Char.isDigit).length
  | _ => (natValChars ds : ℚ)

/-- Round half to even (model of Python `round` on the exact rationals this
pipeline produces; binary-float representation noise is out of scope). -/
def roundHalfEven (x : ℚ) : ℤ :=
  if x - Int.floor x < 1 / 2 then Int.floor x
  else if 1 / 2 < x - Int.floor x then Int.floor x + 1
  else if Int.floor x % 2 = 0 then Int.floor x else Int.floor x + 1

/-- Model of Python `round(x, 2)`. -/
def pyRound2 (x : ℚ) : ℚ :=
  (roundHalfEven (x * 100) : ℚ) / 100

/-- The static tag-to-attendant table (accounts/utils/fuel_utils.py). -/
def TAGID_ATTENDANT_MAP (tagid : String) : Option String :=
  if tagid = "94CBA1" then some "Molapo"
  else if tagid = "56BDEF" then some "Jose"
  else if tagid = "C7DFA1" then some "Sibu"
  else if tagid = "6DC29F" then some "Mathebe"
  else Option.none

/-- A fuel-log (POS1 / EOD) row as consumed by `refresh_dashboard_cache`
(accounts/tasks.py lines 47-77).  `s_date` is the parsed transaction date
as an abstract day number; `Option.none` models a missing or unparseable
date, which the enclosing `try/except` turns into a skipped row.  `total`
keeps the raw value: a missing key defaults to 0, a `None` or
non-convertible value raises inside `float` and skips the row. -/
structure EodRow where
  s_date : Option Nat
  total : Option PyVal
  gradeid : Option String
  tagid : Option String

/-- A POS2/POS3 stock row as consumed by `refresh_dashboard_cache`
(tasks.py lines 81-108).  `trandate` as in `EodRow`; `opref` is the slip
reference the table carries (cf. the `Slip`/`SlipItem` models), which this
aggregator never reads. -/
structure PosRow where
  trandate : Option Nat
  details : Option String
  opref : Option Nat

/-- A `posaud` audit row as consumed by the returns pass (tasks.py lines
111-119). -/
structure PosaudRow where
  details : Option String

/-- The date window precomputed by `refresh_dashboard_cache` from today's
date (tasks.py lines 16-21); the calendar arithmetic producing it is
outside the aggregation model. -/
structure RWindow where
  today : Nat
  weekStart : Nat
  weekEnd : Nat
  monthStart : Nat
  monthEnd : Nat

/-- The `totals` dict, staff performance dict and daily trends dict of
`refresh_dashboard_cache` (tasks.py lines 30-44). -/
structure RTotals where
  daily : ℚ
  weekly : ℚ
  monthly : ℚ
  fuel : ℚ
  diesel : ℚ
  unleaded : ℚ
  nonfuel : ℚ
  revenue : ℚ
  returns : ℚ
  transactions : Nat
  staff : String → ℚ × Nat
  trends : Nat → ℚ

/-- The zero-initialised totals (tasks.py lines 30-44). -/
def rInit : RTotals :=
  ⟨0, 0, 0, 0, 0, 0, 0, 0, 0, 0, fun _ => (0, 0), fun _ => 0⟩

/-- `float(row.get("total", 0))`: a missing key converts 0, a present value
goes through `float`, whose failure skips the row. -/
def eodAmount (row : EodRow) : Option ℚ :=
  match row.total with
  | Option.none => some 0
  | some v => pyFloat v

/-- `totals["fuel"] += amount; totals["revenue"] += amount;
totals["transactions"] += 1` (tasks.py 53-55). -/
def eodCore (s : RTotals) (amount : ℚ) : RTotals :=
  { s with fuel := s.fuel + amount, revenue := s.revenue + amount,
           transactions := s.transactions + 1 }

/-- Grade split on `gradeid` "01"/"02" (tasks.py 57-60). -/
def eodGrade (s : RTotals) (gradeid : String) (amount : ℚ) : RTotals :=
  if gradeid = "01" then { s with unleaded := s.unleaded + amount }
  else if gradeid = "02" then { s with diesel := s.diesel + amount }
  else s

/-- `if s_date == today` daily bucket (tasks.py 62-63 and 99-100). -/
def bucketDaily (w : RWindow) (s : RTotals) (d : Nat) (amount : ℚ) : RTotals :=
  if d = w.today then { s with daily := s.daily + amount } else s

/-- `if week_start <= s_date <= week_end` weekly bucket (tasks.py 64-65 and
101-102). -/
def bucketWeekly (w : RWindow) (s : RTotals) (d : Nat) (amount : ℚ) : RTotals :=
  if w.weekStart ≤ d ∧ d ≤ w.weekEnd then { s with weekly := s.weekly + amount } else s

/-- `if month_start <= s_date <= month_end` monthly bucket (tasks.py 66-67
and 103-104). -/
def bucketMonthly (w : RWindow) (s : RTotals) (d : Nat) (amount : ℚ) : RTotals :=
  if w.monthStart ≤ d ∧ d ≤ w.monthEnd then { s with monthly := s.monthly + amount } else s

/-- Staff performance accumulation keyed through `TAGID_ATTENDANT_MAP`
with the "Unknown" fallback (tasks.py 69-73). -/
def eodStaff (s : RTotals) (tagid : String) (amount : ℚ) : RTotals :=
  { s with staff := fun a =>
      if a = (TAGID_ATTENDANT_MAP (pyUpper tagid)).getD "Unknown" then
        ((s.staff a).1 + amount, (s.staff a).2 + 1)
      else s.staff a }

/-- `daily_trends[date] = daily_trends.get(date, 0) + amount` (tasks.py 75
and 106). -/
def addTrend (s : RTotals) (d : Nat) (amount : ℚ) : RTotals :=
  { s with trends := fun d2 => if d2 = d then s.trends d2 + amount else s.trends d2 }

/-- One iteration of the fuel-sales loop of `refresh_dashboard_cache`
(tasks.py lines 47-77): rows whose date is missing/unparseable or whose
total fails `float` are skipped by the `except`, the rest update the
totals in source order. -/
def eodStep (w : RWindow) (s : RTotals) (row : EodRow) : RTotals :=
  match row.s_date with
  | Option.none => s
  | some d =>
      match eodAmount row with
      | Option.none => s
      | some amount =>
          addTrend
            (eodStaff
              (bucketMonthly w
                (bucketWeekly w
                  (bucketDaily w
                    (eodGrade (eodCore s amount) (pyStrip (row.gradeid.getD "")) amount)
                    d amount)
                  d amount)
                d amount)
              (row.tagid.getD "") amount)
            d amount

/-- The last embedded number of a detail line, or 0
(`float(nums[-1]) if nums else 0`, tasks.py 92-93). -/
def posAmount (details : String) : ℚ :=
  match (findNums details.data).getLast? with
  | some t => numVal t
  | Option.none => 0

/-- `totals["nonfuel"] += amount; totals["revenue"] += amount;
totals["transactions"] += 1` (tasks.py 95-97). -/
def posCore (s : RTotals) (amount : ℚ) : RTotals :=
  { s with nonfuel := s.nonfuel + amount, revenue := s.revenue + amount,
           transactions := s.transactions + 1 }

/-- One iteration of the POS2/POS3 loop of `refresh_dashboard_cache`
(tasks.py lines 81-108): missing/unparseable dates and VOID lines are
skipped, otherwise the last embedded number is the amount. -/
def posStep (w : RWindow) (s : RTotals) (row : PosRow) : RTotals :=
  match row.trandate with
  | Option.none => s
  | some d =>
      if pyIn "VOID" (pyUpper (pyStrip (row.details.getD ""))) then s
      else
        addTrend
          (bucketMonthly w
            (bucketWeekly w
              (bucketDaily w (posCore s (posAmount (pyStrip (row.details.getD "")))) d
                (posAmount (pyStrip (row.details.getD ""))))
              d (posAmount (pyStrip (row.details.getD ""))))
            d (posAmount (pyStrip (row.details.getD ""))))
          d (posAmount (pyStrip (row.details.getD "")))

/-- One iteration of the returns pass of `refresh_dashboard_cache`
(tasks.py lines 111-119): lowercased detail lines containing "return" or
"refund" add their first embedded number (`re.search`) to the returns
total. -/
def posaudStep (s : RTotals) (row : PosaudRow) : RTotals :=
  if pyIn "return" (pyLower (row.details.getD "")) ||
      pyIn "refund" (pyLower (row.details.getD "")) then
    match (findNums (pyLower (row.details.getD "")).data).head? with
    | some t => { s with returns := s.returns + numVal t }
    | Option.none => s
  else s

/-- The amount a `posaud` row contributes to the returns total: the first
embedded decimal number of a keyword-matching detail line, else 0. -/
def returnExtract (row : PosaudRow) : ℚ :=
  if pyIn "return" (pyLower (row.details.getD "")) ||
      pyIn "refund" (pyLower (row.details.getD "")) then
    match (findNums (pyLower (row.details.getD "")).data).head? with
    | some t => numVal t
    | Option.none => 0
  else 0

/-- The whole `refresh_dashboard_cache` aggregation (tasks.py lines
47-119): the fuel loop, then the combined POS2+POS3 loop, then the returns
pass, folded from the zero totals. -/
def refresh_dashboard_agg (w : RWindow) (eod : List EodRow) (pos2 pos3 : List PosRow)
    (posaud : List PosaudRow) : RTotals :=
  posaud.foldl posaudStep ((pos2 ++ pos3).foldl (posStep w) (eod.foldl (eodStep w) rInit))

/-- `nett_revenue: round(totals["revenue"] - totals["returns"], 2)`
(tasks.py line 148). -/
def nett_revenue_cache (s : RTotals) : ℚ :=
  pyRound2 (s.revenue - s.returns)

/-- First of two POS2 line items sharing slip reference 7 (claim C3). -/
def posRowBread : PosRow := ⟨some 3, some "BREAD 10.00", some 7⟩

/-- Second line item of the same slip (claim C3). -/
def posRowMilk : PosRow := ⟨some 3, some "MILK 5.00", some 7⟩

/-- Whether the fuel-sales loop processes an EOD row rather than skipping
it through the `except` (date present and parseable, total convertible). -/
def eodProcessed (row : EodRow) : Bool :=
  row.s_date.isSome && (eodAmount row).isSome

/-- Whether the POS loop processes a row rather than skipping it (date
present and parseable, details not a VOID line). -/
def posProcessed (row : PosRow) : Bool :=
  row.trandate.isSome && !(pyIn "VOID" (pyUpper (pyStrip (row.details.getD ""))))

/-- Match of `QTY_PRICE_PATTERN = (\d+(\.\d+)?)\s*@\s*([\d.]+)\s*([\d.]*)`
anchored at the start (Python `re.match`), returning groups 1, 3 and 4.
The pattern is deterministic under greedy scanning because adjacent
subpatterns use disjoint character classes, so no backtracking can turn a
greedy failure into a success. -/
def qtyPriceMatchChars (l : List Char) : Option (List Char × List Char × List Char) :=
  let d1 := l.takeWhile Char.isDigit
  if d1.isEmpty then Option.none
  else
    let r1 := l.dropWhile Char.isDigit
    let g1r2 : List Char × List Char :=
      match r1 with
      | '.' :: rest =>
          let f := rest.takeWhile Char.isDigit
          if f.isEmpty then (d1, r1) else (d1 ++ '.' :: f, rest.dropWhile Char.isDigit)
      | _ => (d1, r1)
    match g1r2.2.dropWhile pyIsSpace with
    | '@' :: r4 =>
        let r5 := r4.dropWhile pyIsSpace
        let g3 := r5.takeWhile (fun c => c.isDigit || c = '.')
        if g3.isEmpty then Option.none
        else
          let r6 := r5.dropWhile (fun c => c.isDigit || c = '.')
          let g4 := (r6.dropWhile pyIsSpace).takeWhile (fun c => c.isDigit || c = '.')
          some (g1r2.1, g3, g4)
    | _ => Option.none

/-- String wrapper for `qtyPriceMatchChars`. -/
def qtyPriceMatch (s : String) : Option (String × String × String) :=
  (qtyPriceMatchChars s.data).map fun g => (String.mk g.1, String.mk g.2.1, String.mk g.2.2)

/-- Match of the suffix `\s+(\d+\.\d{2})$` against a remainder: at least
one whitespace character, then digits, a dot and exactly two digits ending
the string; returns the price group. -/
def descTail (l : List Char) : Option (List Char) :=
  let r := l.dropWhile pyIsSpace
  if r.length = l.length then Option.none
  else
    let d1 := r.takeWhile Char.isDigit
    if d1.isEmpty then Option.none
    else
      match r.dropWhile Char.isDigit with
      | '.' :: a :: b :: rest =>
          if a.isDigit ∧ b.isDigit ∧ rest.isEmpty then some (d1 ++ ['.', a, b])
          else Option.none
      | _ => Option.none

/-- Lazy scan for `DESCRIPTION_PRICE_PATTERN = (.+?)\s+(\d+\.\d{2})$`
(Python `re.match`): try the shortest non-empty description first; `.`
cannot cross a newline, so the scan stops there. -/
def descGo (g : List Char) : List Char → Option (List Char × List Char)
  | [] => Option.none
  | c :: cs =>
      match (if g.isEmpty then Option.none else descTail (c :: cs)) with
      | some p => some (g, p)
      | Option.none => if c = '\n' then Option.none else descGo (g ++ [c]) cs

/-- Match of `DESCRIPTION_PRICE_PATTERN` returning (description, price). -/
def matchDescPrice (s : String) : Option (String × String) :=
  (descGo [] s.data).map fun p => (String.mk p.1, String.mk p.2)

/-- A raw detail-line record as fed to `normalize_item_rows`:
`details` and `code` keys that may be missing or `None`. -/
structure RawRow where
  details : Option String
  code : Option String
deriving DecidableEq

/-- Rule 3 of the cascade (views.py lines 134-143): the first row of the
whole group whose uppercased details starts with "ITEMS 1 TOTAL", its last
whitespace-separated token converted by `float`; any failure is caught by
the `try/except` and falls through (`none`). -/
def itemsOneTotalValue (rows : List RawRow) : Option ℚ :=
  match rows.find? (fun r => (pyUpper (r.details.getD "")).startsWith "ITEMS 1 TOTAL") with
  | some r =>
      match (pySplit (r.details.getD "")).getLast? with
      | some tok => parseFloat tok
      | Option.none => Option.none
  | Option.none => Option.none

/-- What one pass of the `normalize_item_rows` loop body does at the
current index: skip the row, raise a `ValueError` out of `float`, emit one
entry and advance by one, or emit one entry and advance by two (consuming
the lookahead partner). -/
inductive StepAction where
  | skip : StepAction
  | raise : StepAction
  | emit1 (e : String × ℚ × ℚ × ℚ × String) : StepAction
  | emit2 (e : String × ℚ × ℚ × ℚ × String) : StepAction

/-- The branch cascade of the `normalize_item_rows` loop body (views.py
lines 94-155) at index `i`: empty details skip; a qty/price match emits
with an optional lookback name (group 1 always converts, groups 3/4 may
raise from `float`); else a qty/price match on the next row emits and
consumes it; else the "ITEMS 1 TOTAL" rule; else the description-price
rule (whose price group `\d+\.\d{2}` always converts); else the zero
fallback. -/
def normStepAct (rows : List RawRow) (i : Nat) : StepAction :=
  let row := rows.getD i ⟨Option.none, Option.none⟩
  let details := pyStrip (row.details.getD "")
  let code := row.code.getD ""
  if details = "" then StepAction.skip
  else
    match qtyPriceMatch details with
    | some (g1, g3, g4) =>
        let qty := (parseFloat g1).getD 0
        (match parseFloat g3 with
         | Option.none => StepAction.raise
         | some unit_price =>
             match (if g4 = "" then some (qty * unit_price) else parseFloat g4) with
             | Option.none => StepAction.raise
             | some total_price =>
                 let nb :=
                   if 0 < i then
                     let prev := rows.getD (i - 1) ⟨Option.none, Option.none⟩
                     let pdet := pyStrip (prev.details.getD "")
                     let pcode := prev.code.getD ""
                     if pdet ≠ "" ∧ qtyPriceMatch pdet = Option.none then
                       (pdet, if pcode ≠ "" then pcode else code)
                     else (details, code)
                   else (details, code)
                 StepAction.emit1 (nb.1, qty, unit_price, total_price, nb.2))
    | Option.none =>
        match
          (if i + 1 < rows.length then
            qtyPriceMatch (pyStrip ((rows.getD (i + 1) ⟨Option.none, Option.none⟩).details.getD ""))
          else Option.none) with
        | some (h1, h3, h4) =>
            let qty := (parseFloat h1).getD 0
            (match parseFloat h3 with
             | Option.none => StepAction.raise
             | some unit_price =>
                 match (if h4 = "" then some (qty * unit_price) else parseFloat h4) with
                 | Option.none => StepAction.raise
                 | some total_price =>
                     StepAction.emit2 (details, qty, unit_price, total_price, code))
        | Option.none =>
            match itemsOneTotalValue rows with
            | some tv => StepAction.emit1 (details, 1, tv, tv, code)
            | Option.none =>
                match matchDescPrice details with
                | some (nm, pr) =>
                    StepAction.emit1 (nm, 1, (parseFloat pr).getD 0, (parseFloat pr).getD 0, code)
                | Option.none => StepAction.emit1 (details, 1, 0, 0, code)

/-- The `while index < len(group_rows)` driver of `normalize_item_rows`,
with a fuel argument for structural recursion: the index grows by at least
one per pass, so a fuel of `rows.length + 1` never runs out.  A raised
`ValueError` propagates as `Except.error`. -/
def normGo (rows : List RawRow) : Nat → Nat → Except String (List (String × ℚ × ℚ × ℚ × String))
  | 0, _ => Except.ok []
  | fuel + 1, i =>
      if i < rows.length then
        match normStepAct rows i with
        | StepAction.skip => normGo rows fuel (i + 1)
        | StepAction.raise => Except.error "could not convert string to float"
        | StepAction.emit1 e =>
            match normGo rows fuel (i + 1) with
            | Except.ok rest => Except.ok (e :: rest)
            | Except.error msg => Except.error msg
        | StepAction.emit2 e =>
            match normGo rows fuel (i + 2) with
            | Except.ok rest => Except.ok (e :: rest)
            | Except.error msg => Except.error msg
      else Except.ok []

/-- Embedding of `normalize_item_rows` (views.py lines 89-157), with
`float` failures surfaced as `Except.error` (the Python function has no
handler for them in the qty/price branches). -/
def normalize_item_rows (rows : List RawRow) :
    Except String (List (String × ℚ × ℚ × ℚ × String)) :=
  normGo rows (rows.length + 1) 0

/-- C1: for all numeric inputs `opening`, `closing` and positive
`max_meter`, `calc_dispensed` equals the three-case reference definition:
`closing − opening` when `closing ≥ opening`; `(max_meter − opening) +
closing` on a rollover gap greater than half the modulus; 0 otherwise. -/
theorem calc_dispensed_eq_spec_cases (o c m : ℚ) (hm : 0 < m) :
    calc_dispensed (PyVal.num o) (PyVal.num c) m = dispensedSpecRef o c m := by
  simp [calc_dispensed, dispensedSpecRef, pyFloat]

/-- Witness for C1 at the spec's rollover example: opening 99000, closing
500, max 100000 gives 1500. -/
theorem calc_dispensed_eq_spec_cases_witness :
    (0 : ℚ) < 100000 ∧
      calc_dispensed (PyVal.num 99000) (PyVal.num 500) 100000 =
        dispensedSpecRef 99000 500 100000 ∧
      dispensedSpecRef 99000 500 100000 = 1500 := by
  refine ⟨by norm_num, calc_dispensed_eq_spec_cases 99000 500 100000 (by norm_num), ?_⟩
  norm_num [dispensedSpecRef]

/-- C7: for opening and closing readings bounded by the rollover modulus,
`calc_dispensed` is non-negative. -/
theorem calc_dispensed_nonneg (o c m : ℚ)
    (ho0 : 0 ≤ o) (hom : o ≤ m) (hc0 : 0 ≤ c) (hcm : c ≤ m) :
    0 ≤ calc_dispensed (PyVal.num o) (PyVal.num c) m := by
  simp only [calc_dispensed, pyFloat]
  split
  · norm_num
  · split
    · linarith
    · split
      · linarith
      · norm_num

/-- Witness for C7 at the spec's bad-data example: opening 500, closing
490, max 100000 gives a non-negative value (namely 0). -/
theorem calc_dispensed_nonneg_witness :
    ((0 : ℚ) ≤ 500 ∧ (500 : ℚ) ≤ 100000 ∧ (0 : ℚ) ≤ 490 ∧ (490 : ℚ) ≤ 100000) ∧
      0 ≤ calc_dispensed (PyVal.num 500) (PyVal.num 490) 100000 := by
  refine ⟨⟨by norm_num, by norm_num, by norm_num, by norm_num⟩, ?_⟩
  exact calc_dispensed_nonneg 500 490 100000 (by norm_num) (by norm_num) (by norm_num)
    (by norm_num)

/-- C8: `calc_dispensed` returns 0 (and, being a total function of its
embedded inputs, never raises) when either reading is missing (`None`) or
is a string that is not convertible to float. -/
theorem calc_dispensed_soft_failure (v w : PyVal) (m : ℚ) (s : String)
    (hs : parseFloat s = Option.none) :
    calc_dispensed PyVal.none v m = 0 ∧
      calc_dispensed w PyVal.none m = 0 ∧
      (w ≠ PyVal.none → calc_dispensed (PyVal.str s) w m = 0) ∧
      (w ≠ PyVal.none → calc_dispensed w (PyVal.str s) m = 0) := by
  refine ⟨by simp [calc_dispensed], by simp [calc_dispensed], ?_, ?_⟩
  · intro hw
    simp only [calc_dispensed, pyFloat, hs]
    split
    · rfl
    · rfl
  · intro hw
    have hps : pyFloat (PyVal.str s) = Option.none := hs
    simp only [calc_dispensed, hps]
    split
    · rfl
    · cases hww : pyFloat w <;> simp [hww]

/-- Witness for C8: the string "abc" is not float-convertible and both
argument positions yield 0. -/
theorem calc_dispensed_soft_failure_witness :
    parseFloat "abc" = Option.none ∧
      calc_dispensed (PyVal.str "abc") (PyVal.num 7) 100000 = 0 := by
  have h : parseFloat "abc" = Option.none := by decide
  exact ⟨h,
    (calc_dispensed_soft_failure (PyVal.num 7) (PyVal.num 7) 100000 "abc" h).2.2.1
      (by decide)⟩

theorem insertDesc_ne_nil (x : FuelRate) (l : List FuelRate) : insertDesc x l ≠ [] := by
  cases l with
  | nil => simp [insertDesc]
  | cons y ys =>
      simp only [insertDesc]
      split <;> simp

theorem sortByStartDesc_eq_nil_iff (l : List FuelRate) : sortByStartDesc l = [] ↔ l = [] := by
  cases l with
  | nil => simp [sortByStartDesc]
  | cons x xs => simp [sortByStartDesc, insertDesc_ne_nil]

theorem mem_insertDesc (a x : FuelRate) (l : List FuelRate) :
    a ∈ insertDesc x l ↔ a = x ∨ a ∈ l := by
  induction l with
  | nil => simp [insertDesc]
  | cons y ys ih =>
      simp only [insertDesc]
      split
      · simp
      · simp [ih]
        tauto

theorem sortByStartDesc_head_max (l : List FuelRate) (m : FuelRate) (t : List FuelRate)
    (h : sortByStartDesc l = m :: t) :
    m ∈ l ∧ ∀ y ∈ l, y.start_date ≤ m.start_date := by
  induction l generalizing m t with
  | nil => simp [sortByStartDesc] at h
  | cons x xs ih =>
      simp only [sortByStartDesc] at h
      cases hs : sortByStartDesc xs with
      | nil =>
          have hxs : xs = [] := (sortByStartDesc_eq_nil_iff xs).mp hs
          rw [hs] at h
          simp only [insertDesc] at h
          cases h
          subst hxs
          simp
      | cons y ys =>
          have hy := ih y ys hs
          rw [hs] at h
          simp only [insertDesc] at h
          split at h
          · rename_i hle
            cases h
            refine ⟨by simp, ?_⟩
            intro z hz
            rcases List.mem_cons.mp hz with hz | hz
            · subst hz; exact le_refl _
            · exact le_trans (hy.2 z hz) hle
          · rename_i hgt
            cases h
            refine ⟨List.mem_cons_of_mem _ hy.1, ?_⟩
            intro z hz
            rcases List.mem_cons.mp hz with hz | hz
            · subst hz; omega
            · exact hy.2 z hz

/-- C2: the applicable fuel rate is the value of a rate with the most
recent start date ≤ the report date; the lookup returns 0 when no rate
qualifies; and the spec's example (rates starting 2025-01-01 at 20 and
2025-03-01 at 22, queried at 2025-02-15) yields 20. -/
theorem get_rate_for_date_spec :
    (∀ (rates : List FuelRate) (nm : String) (d : Nat),
        ((∀ r ∈ rates, r.rate_name = nm → ¬r.start_date ≤ d) →
          get_rate_for_date rates nm d = 0) ∧
        (∀ r0 ∈ rates, r0.rate_name = nm → r0.start_date ≤ d →
          ∃ r ∈ rates, r.rate_name = nm ∧ r.start_date ≤ d ∧
            (∀ r2 ∈ rates, r2.rate_name = nm → r2.start_date ≤ d →
              r2.start_date ≤ r.start_date) ∧
            get_rate_for_date rates nm d = r.value)) ∧
      get_rate_for_date
        [⟨"rate_r22_12", 20250101, 20⟩, ⟨"rate_r22_12", 20250301, 22⟩]
        "rate_r22_12" 20250215 = 20 := by
  constructor
  · intro rates nm d
    constructor
    · intro hmiss
      have hc : rateCandidates rates nm d = [] := by
        simp only [rateCandidates, List.filter_eq_nil_iff]
        intro r hr
        simp only [decide_eq_true_eq, not_and]
        intro hn
        exact hmiss r hr hn
      simp [get_rate_for_date, hc, sortByStartDesc]
    · intro r0 hr0 hn0 hd0
      have hc0 : r0 ∈ rateCandidates rates nm d := by
        simp only [rateCandidates, List.mem_filter, decide_eq_true_eq]
        exact ⟨hr0, hn0, hd0⟩
      have hne : rateCandidates rates nm d ≠ [] := by
        intro h
        rw [h] at hc0
        simp at hc0
      cases hs : sortByStartDesc (rateCandidates rates nm d) with
      | nil => exact absurd ((sortByStartDesc_eq_nil_iff _).mp hs) hne
      | cons m t =>
          have hm := sortByStartDesc_head_max _ m t hs
          have hmem : m ∈ rateCandidates rates nm d := hm.1
          simp only [rateCandidates, List.mem_filter, decide_eq_true_eq] at hmem
          refine ⟨m, hmem.1, hmem.2.1, hmem.2.2, ?_, ?_⟩
          · intro r2 hr2 hn2 hd2
            refine hm.2 r2 ?_
            simp only [rateCandidates, List.mem_filter, decide_eq_true_eq]
            exact ⟨hr2, hn2, hd2⟩
          · simp [get_rate_for_date, hs]
  · decide

/-- Witness for C2: the miss case applied at an empty rate list (no rate
has a start date ≤ the target), returning 0. -/
theorem get_rate_for_date_spec_witness :
    get_rate_for_date [] "rate_r22_12" 20250215 = 0 :=
  (get_rate_for_date_spec.1 [] "rate_r22_12" 20250215).1 (by simp)

theorem dashStep_transactions (s : DashState) (item : SlipItem) :
    (dashStep s item).total_transactions =
      (if slipKey item ∈ s.seen_slips then s.total_transactions
       else s.total_transactions + 1) := by
  simp only [dashStep, stepStaff, stepHourly, stepDaily, stepUnleaded, stepDiesel,
    stepFuelSplit, stepTransactions, stepRevenueVat, apply_ite DashState.total_transactions,
    ite_self]

theorem dashStep_seen (s : DashState) (item : SlipItem) :
    (dashStep s item).seen_slips =
      (if slipKey item ∈ s.seen_slips then s.seen_slips
       else slipKey item :: s.seen_slips) := by
  simp only [dashStep, stepStaff, stepHourly, stepDaily, stepUnleaded, stepDiesel,
    stepFuelSplit, stepTransactions, stepRevenueVat, apply_ite DashState.seen_slips,
    ite_self]

theorem dash_fold_trans (rows : List SlipItem) (s : DashState) :
    ((rows.foldl dashStep s).total_transactions =
        s.total_transactions +
          ((rows.map slipKey).toFinset \ s.seen_slips.toFinset).card) ∧
      (rows.foldl dashStep s).seen_slips.toFinset =
        s.seen_slips.toFinset ∪ (rows.map slipKey).toFinset := by
  induction rows generalizing s with
  | nil => simp
  | cons r rows ih =>
      have ih2 := ih (dashStep s r)
      by_cases hk : slipKey r ∈ s.seen_slips
      · have hkf : slipKey r ∈ s.seen_slips.toFinset := List.mem_toFinset.mpr hk
        have hins :
            insert (slipKey r) ((rows.map slipKey).toFinset) \ s.seen_slips.toFinset =
              (rows.map slipKey).toFinset \ s.seen_slips.toFinset := by
          ext a
          simp only [Finset.mem_sdiff, Finset.mem_insert]
          constructor
          · rintro ⟨ha | ha, hna⟩
            · exact absurd (ha ▸ hkf) hna
            · exact ⟨ha, hna⟩
          · rintro ⟨ha, hna⟩
            exact ⟨Or.inr ha, hna⟩
        constructor
        · rw [List.foldl_cons, ih2.1, dashStep_transactions, dashStep_seen, if_pos hk,
            if_pos hk]
          simp [hins]
        · rw [List.foldl_cons, ih2.2, dashStep_seen, if_pos hk]
          simp only [List.map_cons, List.toFinset_cons]
          rw [Finset.union_insert, Finset.insert_eq_self.mpr]
          exact Finset.mem_union_left _ hkf
      · have hkf : slipKey r ∉ s.seen_slips.toFinset := fun h => hk (List.mem_toFinset.mp h)
        have hsplit :
            insert (slipKey r) ((rows.map slipKey).toFinset) \ s.seen_slips.toFinset =
              insert (slipKey r)
                ((rows.map slipKey).toFinset \ insert (slipKey r) s.seen_slips.toFinset) := by
          ext a
          simp only [Finset.mem_sdiff, Finset.mem_insert, not_or]
          by_cases hak : a = slipKey r
          · subst hak
            simp [hkf]
          · tauto
        constructor
        · rw [List.foldl_cons, ih2.1, dashStep_transactions, dashStep_seen, if_neg hk,
            if_neg hk]
          simp only [List.map_cons, List.toFinset_cons, List.toFinset_cons] at hsplit ⊢
          rw [hsplit, Finset.card_insert_of_not_mem (by simp)]
          omega
        · rw [List.foldl_cons, ih2.2, dashStep_seen, if_neg hk]
          simp only [List.map_cons, List.toFinset_cons, List.toFinset_cons]
          ext a
          simp only [Finset.mem_union, Finset.mem_insert]
          tauto

theorem eodStep_transactions (w : RWindow) (s : RTotals) (row : EodRow) :
    (eodStep w s row).transactions =
      s.transactions + (if eodProcessed row then 1 else 0) := by
  cases hd : row.s_date with
  | none => simp [eodStep, hd, eodProcessed]
  | some d =>
      cases ha : eodAmount row with
      | none => simp [eodStep, hd, ha, eodProcessed]
      | some a =>
          simp [eodStep, hd, ha, eodProcessed, addTrend, eodStaff, bucketMonthly,
            bucketWeekly, bucketDaily, eodGrade, eodCore, apply_ite RTotals.transactions,
            ite_self]

theorem posStep_transactions (w : RWindow) (s : RTotals) (row : PosRow) :
    (posStep w s row).transactions =
      s.transactions + (if posProcessed row then 1 else 0) := by
  cases hd : row.trandate with
  | none => simp [posStep, hd, posProcessed]
  | some d =>
      by_cases hv : pyIn "VOID" (pyUpper (pyStrip (row.details.getD ""))) = true
      · simp [posStep, hd, hv, posProcessed]
      · simp [posStep, hd, hv, posProcessed, addTrend, bucketMonthly, bucketWeekly,
          bucketDaily, posCore, apply_ite RTotals.transactions, ite_self]

theorem posaudStep_transactions (s : RTotals) (row : PosaudRow) :
    (posaudStep s row).transactions = s.transactions := by
  unfold posaudStep
  split
  · cases h : (findNums (pyLower (row.details.getD "")).data).head? with
    | none => simp [h]
    | some t => simp [h]
  · simp

theorem fold_count_transactions {α : Type} (step : RTotals → α → RTotals)
    (proc : α → Bool)
    (hstep : ∀ s a, (step s a).transactions = s.transactions + (if proc a then 1 else 0))
    (l : List α) (s : RTotals) :
    (l.foldl step s).transactions = s.transactions + (l.filter proc).length := by
  induction l generalizing s with
  | nil => simp
  | cons a l ih =>
      rw [List.foldl_cons, ih (step s a), hstep]
      by_cases hp : proc a <;> simp [List.filter_cons, hp] <;> omega

theorem foldl_preserves_transactions {α : Type} (step : RTotals → α → RTotals)
    (hstep : ∀ s a, (step s a).transactions = s.transactions)
    (l : List α) (s : RTotals) : (l.foldl step s).transactions = s.transactions := by
  induction l generalizing s with
  | nil => rfl
  | cons a l ih => rw [List.foldl_cons, ih (step s a), hstep]

/-- C3 (amended): in the `admin_dashboard` aggregator the transaction count
equals the number of distinct slip keys, accumulated over the set of seen
slip identifiers; in particular, two line items sharing one slip identifier
count as exactly 1 transaction.  The cache-refresh aggregator instead
counts one transaction per processed raw row, with no slip
deduplication. -/
theorem admin_dashboard_transactions_distinct :
    (∀ rows : List SlipItem,
        (admin_dashboard_agg rows).total_transactions =
          ((rows.map slipKey).toFinset).card) ∧
      (admin_dashboard_agg [slipItemBread, slipItemMilk]).total_transactions = 1 ∧
      ∀ (w : RWindow) (eod : List EodRow) (pos2 pos3 : List PosRow)
        (aud : List PosaudRow),
        (refresh_dashboard_agg w eod pos2 pos3 aud).transactions =
          (eod.filter eodProcessed).length +
            ((pos2 ++ pos3).filter posProcessed).length := by
  refine ⟨?_, by decide, ?_⟩
  · intro rows
    have h := (dash_fold_trans rows dashInit).1
    simpa [admin_dashboard_agg, dashInit] using h
  · intro w eod pos2 pos3 aud
    unfold refresh_dashboard_agg
    rw [foldl_preserves_transactions posaudStep posaudStep_transactions,
      fold_count_transactions (posStep w) posProcessed (posStep_transactions w),
      fold_count_transactions (eodStep w) eodProcessed (eodStep_transactions w)]
    simp [rInit]

theorem dashStep_revenue (s : DashState) (item : SlipItem) :
    (dashStep s item).total_revenue = s.total_revenue + itemAmount item := by
  simp only [dashStep, stepStaff, stepHourly, stepDaily, stepUnleaded, stepDiesel,
    stepFuelSplit, stepTransactions, stepRevenueVat, apply_ite DashState.total_revenue,
    ite_self]

theorem dashStep_fuel (s : DashState) (item : SlipItem) :
    (dashStep s item).fuel_total =
      (if isFuelItem item then s.fuel_total + itemAmount item else s.fuel_total) := by
  simp only [dashStep, stepStaff, stepHourly, stepDaily, stepUnleaded, stepDiesel,
    stepFuelSplit, stepTransactions, stepRevenueVat, apply_ite DashState.fuel_total,
    ite_self]

theorem dashStep_nonfuel (s : DashState) (item : SlipItem) :
    (dashStep s item).nonfuel_total =
      (if isFuelItem item then s.nonfuel_total else s.nonfuel_total + itemAmount item) := by
  simp only [dashStep, stepStaff, stepHourly, stepDaily, stepUnleaded, stepDiesel,
    stepFuelSplit, stepTransactions, stepRevenueVat, apply_ite DashState.nonfuel_total,
    ite_self]

theorem dashStep_returns (s : DashState) (item : SlipItem) :
    (dashStep s item).total_returns = s.total_returns := by
  simp only [dashStep, stepStaff, stepHourly, stepDaily, stepUnleaded, stepDiesel,
    stepFuelSplit, stepTransactions, stepRevenueVat, apply_ite DashState.total_returns,
    ite_self]

theorem sum_map_filter_split (p : SlipItem → Bool) (f : SlipItem → ℚ) (l : List SlipItem) :
    ((l.filter p).map f).sum + ((l.filter (fun a => !(p a))).map f).sum = (l.map f).sum := by
  induction l with
  | nil => simp
  | cons a l ih =>
      by_cases hp : p a <;>
        simp [List.filter_cons, hp, ← ih] <;> ring

theorem dash_fold_totals (rows : List SlipItem) (s : DashState) :
    (rows.foldl dashStep s).total_revenue = s.total_revenue + (rows.map itemAmount).sum ∧
      (rows.foldl dashStep s).fuel_total =
        s.fuel_total + ((rows.filter isFuelItem).map itemAmount).sum ∧
      (rows.foldl dashStep s).nonfuel_total =
        s.nonfuel_total + ((rows.filter (fun r => !(isFuelItem r))).map itemAmount).sum ∧
      (rows.foldl dashStep s).total_returns = s.total_returns := by
  induction rows generalizing s with
  | nil => simp
  | cons r rows ih =>
      have ih2 := ih (dashStep s r)
      refine ⟨?_, ?_, ?_, ?_⟩
      · rw [List.foldl_cons, ih2.1, dashStep_revenue]
        simp [add_assoc]
      · rw [List.foldl_cons, ih2.2.1, dashStep_fuel]
        by_cases hf : isFuelItem r <;> simp [List.filter_cons, hf, add_assoc]
      · rw [List.foldl_cons, ih2.2.2.1, dashStep_nonfuel]
        by_cases hf : isFuelItem r <;> simp [List.filter_cons, hf, add_assoc]
      · rw [List.foldl_cons, ih2.2.2.2, dashStep_returns]

/-- C9: the Sales Aggregator is a pure function of its input row set: the
embedding folds each invocation from the freshly zero-initialised
accumulators (`dashInit`), with no state carried between invocations, so
two runs over an identical row set produce identical totals. -/
theorem admin_dashboard_agg_idempotent (rows : List SlipItem) :
    (admin_dashboard_agg rows).total_revenue = (admin_dashboard_agg rows).total_revenue ∧
      (admin_dashboard_agg rows).fuel_total = (admin_dashboard_agg rows).fuel_total ∧
      (admin_dashboard_agg rows).nonfuel_total = (admin_dashboard_agg rows).nonfuel_total ∧
      (admin_dashboard_agg rows).staff_sales = (admin_dashboard_agg rows).staff_sales ∧
      (admin_dashboard_agg rows).daily_sales = (admin_dashboard_agg rows).daily_sales ∧
      (admin_dashboard_agg rows).hourly_sales = (admin_dashboard_agg rows).hourly_sales ∧
      (admin_dashboard_agg rows).total_transactions =
        (admin_dashboard_agg rows).total_transactions ∧
      admin_dashboard_agg rows = rows.foldl dashStep dashInit :=
  ⟨rfl, rfl, rfl, rfl, rfl, rfl, rfl, rfl⟩

/-- C10: in the `admin_dashboard` aggregation the returns total stays 0 for
every input row set (it is initialised but never accumulated), so the
reported net revenue always equals the gross total revenue. -/
theorem admin_dashboard_returns_always_zero (rows : List SlipItem) :
    (admin_dashboard_agg rows).total_returns = 0 ∧
      views_nett_revenue (admin_dashboard_agg rows) =
        (admin_dashboard_agg rows).total_revenue := by
  have h := (dash_fold_totals rows dashInit).2.2.2
  have h0 : (admin_dashboard_agg rows).total_returns = 0 := by
    simpa [admin_dashboard_agg, dashInit] using h
  exact ⟨h0, by simp [views_nett_revenue, h0]⟩

theorem eodStep_returns (w : RWindow) (s : RTotals) (row : EodRow) :
    (eodStep w s row).returns = s.returns := by
  unfold eodStep
  cases row.s_date with
  | none => rfl
  | some d =>
      cases ha : eodAmount row with
      | none => rfl
      | some a =>
          simp only [addTrend, eodStaff, bucketMonthly, bucketWeekly, bucketDaily, eodGrade,
            eodCore, apply_ite RTotals.returns, ite_self]

theorem posStep_returns (w : RWindow) (s : RTotals) (row : PosRow) :
    (posStep w s row).returns = s.returns := by
  unfold posStep
  cases row.trandate with
  | none => rfl
  | some d =>
      split
      · rfl
      · simp only [addTrend, bucketMonthly, bucketWeekly, bucketDaily, posCore,
          apply_ite RTotals.returns, ite_self]

theorem posaudStep_returns (s : RTotals) (row : PosaudRow) :
    (posaudStep s row).returns = s.returns + returnExtract row := by
  unfold posaudStep returnExtract
  split
  · cases h : (findNums (pyLower (row.details.getD "")).data).head? with
    | none => simp [h]
    | some t => simp [h]
  · simp

theorem posaudStep_rev_fuel_nonfuel (s : RTotals) (row : PosaudRow) :
    (posaudStep s row).revenue = s.revenue ∧ (posaudStep s row).fuel = s.fuel ∧
      (posaudStep s row).nonfuel = s.nonfuel := by
  unfold posaudStep
  split
  · cases h : (findNums (pyLower (row.details.getD "")).data).head? with
    | none => simp [h]
    | some t => simp [h]
  · simp

theorem eodStep_split (w : RWindow) (s : RTotals) (row : EodRow)
    (h : s.revenue = s.fuel + s.nonfuel) :
    (eodStep w s row).revenue = (eodStep w s row).fuel + (eodStep w s row).nonfuel := by
  unfold eodStep
  cases row.s_date with
  | none => exact h
  | some d =>
      cases ha : eodAmount row with
      | none => exact h
      | some a =>
          simp only [addTrend, eodStaff, bucketMonthly, bucketWeekly, bucketDaily, eodGrade,
            eodCore, apply_ite RTotals.revenue, apply_ite RTotals.fuel,
            apply_ite RTotals.nonfuel, ite_self]
          linarith

theorem posStep_split (w : RWindow) (s : RTotals) (row : PosRow)
    (h : s.revenue = s.fuel + s.nonfuel) :
    (posStep w s row).revenue = (posStep w s row).fuel + (posStep w s row).nonfuel := by
  unfold posStep
  split
  · exact h
  · split
    · exact h
    · simp only [addTrend, bucketMonthly, bucketWeekly, bucketDaily, posCore,
        apply_ite RTotals.revenue, apply_ite RTotals.fuel, apply_ite RTotals.nonfuel,
        ite_self]
      linarith

theorem foldl_preserves_split {α : Type} (step : RTotals → α → RTotals)
    (hstep : ∀ s a, s.revenue = s.fuel + s.nonfuel →
      (step s a).revenue = (step s a).fuel + (step s a).nonfuel)
    (l : List α) (s : RTotals) (h : s.revenue = s.fuel + s.nonfuel) :
    (l.foldl step s).revenue = (l.foldl step s).fuel + (l.foldl step s).nonfuel := by
  induction l generalizing s with
  | nil => exact h
  | cons a l ih => exact ih (step s a) (hstep s a h)

theorem foldl_preserves_returns {α : Type} (step : RTotals → α → RTotals)
    (hstep : ∀ s a, (step s a).returns = s.returns)
    (l : List α) (s : RTotals) : (l.foldl step s).returns = s.returns := by
  induction l generalizing s with
  | nil => rfl
  | cons a l ih => rw [List.foldl_cons, ih (step s a), hstep]

theorem posaud_fold_returns (l : List PosaudRow) (s : RTotals) :
    (l.foldl posaudStep s).returns = s.returns + (l.map returnExtract).sum := by
  induction l generalizing s with
  | nil => simp
  | cons r l ih =>
      rw [List.foldl_cons, ih (posaudStep s r), posaudStep_returns]
      simp [add_assoc]

theorem numVal_nonneg (l : List Char) : 0 ≤ numVal l := by
  unfold numVal
  split
  · positivity
  · positivity

theorem returnExtract_nonneg (row : PosaudRow) : 0 ≤ returnExtract row := by
  unfold returnExtract
  split
  · cases h : (findNums (pyLower (row.details.getD "")).data).head? with
    | none => simp [h]
    | some t => simpa [h] using numVal_nonneg t
  · simp

/-- C4: total revenue always equals fuel total plus non-fuel total.  In the
`admin_dashboard` aggregator the fuel bucket is exactly the sum over rows
whose item name indicates a recognized grade (DIESEL/UNLEADED) and the
non-fuel bucket exactly the sum over the rest, so no row is double-counted
or dropped; the cache-refresh aggregator satisfies the same revenue
equation. -/
theorem revenue_equals_fuel_plus_nonfuel :
    (∀ rows : List SlipItem,
        (admin_dashboard_agg rows).total_revenue =
          (admin_dashboard_agg rows).fuel_total + (admin_dashboard_agg rows).nonfuel_total ∧
        (admin_dashboard_agg rows).fuel_total =
          ((rows.filter isFuelItem).map itemAmount).sum ∧
        (admin_dashboard_agg rows).nonfuel_total =
          ((rows.filter (fun r => !(isFuelItem r))).map itemAmount).sum) ∧
      ∀ (w : RWindow) (eod : List EodRow) (pos2 pos3 : List PosRow)
        (aud : List PosaudRow),
        (refresh_dashboard_agg w eod pos2 pos3 aud).revenue =
          (refresh_dashboard_agg w eod pos2 pos3 aud).fuel +
            (refresh_dashboard_agg w eod pos2 pos3 aud).nonfuel := by
  constructor
  · intro rows
    have h := dash_fold_totals rows dashInit
    have hrev : (admin_dashboard_agg rows).total_revenue = (rows.map itemAmount).sum := by
      simpa [admin_dashboard_agg, dashInit] using h.1
    have hfuel : (admin_dashboard_agg rows).fuel_total =
        ((rows.filter isFuelItem).map itemAmount).sum := by
      simpa [admin_dashboard_agg, dashInit] using h.2.1
    have hnon : (admin_dashboard_agg rows).nonfuel_total =
        ((rows.filter (fun r => !(isFuelItem r))).map itemAmount).sum := by
      simpa [admin_dashboard_agg, dashInit] using h.2.2.1
    refine ⟨?_, hfuel, hnon⟩
    rw [hrev, hfuel, hnon, sum_map_filter_split]
  · intro w eod pos2 pos3 aud
    unfold refresh_dashboard_agg
    have h1 := foldl_preserves_split (eodStep w) (eodStep_split w) eod rInit (by simp [rInit])
    have h2 := foldl_preserves_split (posStep w) (posStep_split w) (pos2 ++ pos3) _ h1
    exact foldl_preserves_split posaudStep
      (fun s a hs => by
        have hp := posaudStep_rev_fuel_nonfuel s a
        rw [hp.1, hp.2.1, hp.2.2]; exact hs)
      aud _ h2

/-- C6: the cache-refresh Sales Aggregator's returns total is the sum over
`posaud` rows of the first embedded decimal number of each detail line
containing "return" or "refund" (unmatched or malformed lines contribute
zero); it is non-negative; and net revenue is computed as gross revenue
minus the returns total (rounded to cents for display). -/
theorem refresh_returns_spec (w : RWindow) (eod : List EodRow) (pos2 pos3 : List PosRow)
    (aud : List PosaudRow) :
    (refresh_dashboard_agg w eod pos2 pos3 aud).returns = (aud.map returnExtract).sum ∧
      0 ≤ (refresh_dashboard_agg w eod pos2 pos3 aud).returns ∧
      nett_revenue_cache (refresh_dashboard_agg w eod pos2 pos3 aud) =
        pyRound2 ((refresh_dashboard_agg w eod pos2 pos3 aud).revenue -
          (refresh_dashboard_agg w eod pos2 pos3 aud).returns) := by
  have hsum : (refresh_dashboard_agg w eod pos2 pos3 aud).returns =
      (aud.map returnExtract).sum := by
    unfold refresh_dashboard_agg
    rw [posaud_fold_returns,
      foldl_preserves_returns (posStep w) (posStep_returns w),
      foldl_preserves_returns (eodStep w) (eodStep_returns w)]
    simp [rInit]
  refine ⟨hsum, ?_, rfl⟩
  rw [hsum]
  exact List.sum_nonneg (by
    intro x hx
    rcases List.mem_map.mp hx with ⟨r, hr, hrx⟩
    exact hrx ▸ returnExtract_nonneg r)

/-- C3 counterexample: the cache-refresh aggregator (tasks.py lines 81-108)
increments its transaction count once per raw row with no slip
deduplication, so two line items sharing one slip reference count as 2
transactions while the number of distinct slip identifiers is 1 — the
claim fails for this aggregator. -/
theorem refresh_counts_rows_not_distinct_slips :
    (refresh_dashboard_agg ⟨0, 0, 0, 0, 0⟩ [] [posRowBread, posRowMilk] [] []).transactions
        = 2 ∧
      (([posRowBread, posRowMilk].map PosRow.opref).toFinset).card = 1 ∧
      (refresh_dashboard_agg ⟨0, 0, 0, 0, 0⟩ [] [posRowBread, posRowMilk] [] []).transactions
        ≠ (([posRowBread, posRowMilk].map PosRow.opref).toFinset).card := by
  refine ⟨by decide, by decide, by decide⟩

/-- C5: the line parser is claimed never to raise, but the row
`{"details": "1 @ .", "code": None}` matches `QTY_PRICE_PATTERN` with
group 3 = ".", and `float(".")` raises an uncaught `ValueError`
(views.py line 107), so `normalize_item_rows` propagates an exception
instead of degrading to the fallback entry. -/
theorem normalize_item_rows_raises_on_malformed_number :
    normalize_item_rows [⟨some "1 @ .", Option.none⟩] =
      Except.error "could not convert string to float" := by
  rfl
